import Mathlib

/-!
Verification of the FunGame Flappy-Square environment (`flappy_env.py`).

The Python code is shallowly embedded: Python floats become rationals (the
constants involved, 0.35, -7.5, 0.15, 3.0, 0.1, -0.01, are all exact small
decimals and every operation performed on them is +, -, *, / and comparisons),
Python ints become naturals, the ambient global `random` module is modelled as
an explicit stream `rng : ℕ → ℕ` together with a cursor `rngIdx` counting the
draws already consumed, and `random.randint lo hi` becomes
`lo + rng idx % (hi + 1 - lo)`, a value of the closed interval `[lo, hi]`.
`pygame.Rect` stores integers, truncating float arguments toward zero, and
`colliderect` is the strict-inequality overlap test on `[p, p+s)` boxes.
-/

namespace FunGame

/-- `WIDTH` from `flappy_env.py`. -/
def WIDTH : ℕ := 480

/-- `HEIGHT` from `flappy_env.py`. -/
def HEIGHT : ℕ := 640

/-- `GRAVITY = 0.35`. -/
def GRAVITY : ℚ := 35 / 100

/-- `FLAP_STRENGTH = -7.5`. -/
def FLAP_STRENGTH : ℚ := -75 / 10

/-- `PIPE_INTERVAL_TICKS = 90`. -/
def PIPE_INTERVAL_TICKS : ℕ := 90

/-- `PIPE_SPEED_START = 3.0`. -/
def PIPE_SPEED_START : ℚ := 3

/-- `GAP_START = 170`. -/
def GAP_START : ℕ := 170

/-- `GAP_MIN = 100`. -/
def GAP_MIN : ℕ := 100

/-- `GAP_DEC = 4`. -/
def GAP_DEC : ℕ := 4

/-- `SQUARE_SIZE = 38`. -/
def SQUARE_SIZE : ℕ := 38

/-- Python `int(q)` on a float: truncation toward zero. -/
def pyTrunc (q : ℚ) : ℤ :=
  if 0 ≤ q.num then q.num / (q.den : ℤ) else -((-q.num) / (q.den : ℤ))

/-- Python `random.randint lo hi`, drawing the value at cursor `idx` of the
ambient stream `rng`; always lands in `[lo, hi]` when `lo ≤ hi`. -/
def randint (rng : ℕ → ℕ) (idx lo hi : ℕ) : ℕ :=
  lo + rng idx % (hi + 1 - lo)

/-- An integer axis-aligned rectangle, as `pygame.Rect`. -/
structure Rect where
  x : ℤ
  y : ℤ
  w : ℤ
  h : ℤ
  deriving DecidableEq

/-- `pygame.Rect.colliderect`: strict overlap of `[p, p+s)` boxes, the
conjunction of the two horizontal and the two vertical comparisons (listed
horizontal-first; `∧` is commutative so the order is immaterial). -/
def collideRect (a b : Rect) : Bool :=
  decide (a.x < b.x + b.w) && decide (a.x + a.w > b.x) &&
    decide (a.y < b.y + b.h) && decide (a.y + a.h > b.y)

/-- `_Square`: the falling square, vertical position and velocity. -/
structure Square where
  y : ℚ
  vel : ℚ
  deriving DecidableEq

/-- `_Square.__init__`: centred vertically, at rest. -/
def Square.init : Square :=
  { y := (HEIGHT : ℚ) / 2, vel := 0 }

/-- `_Square.flap`: set velocity to the impulse constant. -/
def Square.flap (s : Square) : Square :=
  { s with vel := FLAP_STRENGTH }

/-- `_Square.update`: gravity into velocity, velocity into position. -/
def Square.update (s : Square) : Square :=
  { y := s.y + (s.vel + GRAVITY), vel := s.vel + GRAVITY }

/-- `_Square.rect`: `pg.Rect(WIDTH // 4, int(self.y), SQUARE_SIZE, SQUARE_SIZE)`. -/
def Square.rect (s : Square) : Rect :=
  { x := ((WIDTH / 4 : ℕ) : ℤ), y := pyTrunc s.y, w := (SQUARE_SIZE : ℤ), h := (SQUARE_SIZE : ℤ) }

/-- `_Pipe`: one obstacle pair. -/
structure Pipe where
  x : ℚ
  w : ℚ
  gap_y : ℕ
  gap_h : ℕ
  passed : Bool
  deriving DecidableEq

/-- `_Pipe.rects`: the top and bottom `pygame` rectangles. -/
def Pipe.rects (p : Pipe) : Rect × Rect :=
  ({ x := pyTrunc p.x, y := 0, w := pyTrunc p.w, h := (p.gap_y : ℤ) },
   { x := pyTrunc p.x, y := ((p.gap_y + p.gap_h : ℕ) : ℤ), w := pyTrunc p.w,
     h := (HEIGHT : ℤ) - ((p.gap_y + p.gap_h : ℕ) : ℤ) })

/-- `_Pipe.off_screen`: trailing edge left of the screen. -/
def Pipe.offScreen (p : Pipe) : Bool :=
  decide (p.x + p.w < 0)

/-- The environment state owned by `FlappyEnv`, plus the cursor into the
ambient global-random stream (the Python `random` module's hidden state). -/
structure EnvState where
  square : Square
  pipes : List Pipe
  tick : ℕ
  pipe_speed : ℚ
  gap_h : ℕ
  score : ℕ
  rngIdx : ℕ
  deriving DecidableEq

set_option linter.unusedVariables false in
/-- `FlappyEnv.reset`: note that `seed` only seeds `self.np_random`, which the
environment never reads; no field of the resulting state depends on it. -/
def resetEnv (seed : ℕ) : EnvState :=
  { square := Square.init, pipes := [], tick := 0, pipe_speed := PIPE_SPEED_START,
    gap_h := GAP_START, score := 0, rngIdx := 0 }

/-- Accumulator of the `for pipe in list(self.pipes)` loop in `FlappyEnv.step`:
the pipes kept so far, and the live reward/speed/gap/score being mutated. -/
structure LoopAcc where
  pipes : List Pipe
  reward : ℚ
  speed : ℚ
  gap_h : ℕ
  score : ℕ
  deriving DecidableEq

/-- One iteration of the pipe loop: advance the pipe by the current speed; if
unpassed and its trailing edge is left of `WIDTH // 4`, flag it and fire the
score callback (score, reward, speed, gap); drop it if off screen. -/
def processPipe (acc : LoopAcc) (p : Pipe) : LoopAcc :=
  let p1 : Pipe := { p with x := p.x - acc.speed }
  let fire : Bool := !p1.passed && decide (p1.x + p1.w < ((WIDTH / 4 : ℕ) : ℚ))
  let p2 : Pipe := if fire then { p1 with passed := true } else p1
  let acc2 : LoopAcc :=
    if fire then
      { acc with
          score := acc.score + 1
          reward := acc.reward + 1
          speed := acc.speed + 15 / 100
          gap_h := max GAP_MIN (acc.gap_h - GAP_DEC) }
    else acc
  if p2.offScreen then acc2
  else { acc2 with pipes := acc2.pipes ++ [p2] }

/-- The spawn block of `FlappyEnv.step` (lines 112-114): on ticks that are
multiples of the interval, draw a gap offset with `random.randint(60,
HEIGHT - 60 - self.gap_h)` from the ambient stream and append a pipe at the
right screen edge. -/
def spawnPhase (rng : ℕ → ℕ) (s : EnvState) : EnvState :=
  if s.tick % PIPE_INTERVAL_TICKS = 0 then
    let gy := randint rng s.rngIdx 60 (HEIGHT - 60 - s.gap_h)
    { s with
        pipes := s.pipes ++
          [{ x := (WIDTH : ℚ), w := 60, gap_y := gy, gap_h := s.gap_h, passed := false }]
        rngIdx := s.rngIdx + 1 }
  else s

/-- The collision test of `FlappyEnv.step` (lines 129-134). -/
def collidedCheck (s : EnvState) : Bool :=
  decide (s.square.y < 0) || decide (s.square.y + (SQUARE_SIZE : ℚ) > (HEIGHT : ℚ)) ||
    s.pipes.any (fun p =>
      collideRect s.square.rect p.rects.1 || collideRect s.square.rect p.rects.2)

/-- Python `min(..., key=lambda p: p.x)` over a list: first minimal element. -/
def pyMinByX (ps : List Pipe) : Option Pipe :=
  ps.foldl (fun acc p =>
    match acc with
    | none => some p
    | some q => if p.x < q.x then some p else some q) none

/-- The `next_pipe` query shared by the shaping block and `_get_obs`: the
first-minimal-`x` live pipe whose trailing edge has not passed `WIDTH // 4`
(`x + w ≥ WIDTH // 4`, written as the negation of `<` over the linear order). -/
def nextPipe (ps : List Pipe) : Option Pipe :=
  pyMinByX (ps.filter (fun p => !decide (p.x + p.w < ((WIDTH / 4 : ℕ) : ℚ))))

/-- The gap-centre shaping block of `FlappyEnv.step` (lines 139-149). -/
def shapedReward (s : EnvState) (reward : ℚ) : ℚ :=
  match nextPipe s.pipes with
  | none => reward
  | some p =>
      reward + (1 / 10) * (1 - |s.square.y - ((p.gap_y : ℚ) + (p.gap_h : ℚ) / 2)| / ((HEIGHT : ℚ) / 2))

/-- `FlappyEnv._get_obs`. -/
def getObs (s : EnvState) : ℚ × ℚ × ℚ × ℚ :=
  match nextPipe s.pipes with
  | none =>
      (0, (WIDTH : ℚ) / (WIDTH : ℚ), s.square.vel / 10,
        ((s.gap_h : ℚ) - (GAP_MIN : ℚ)) / ((GAP_START : ℚ) - (GAP_MIN : ℚ)))
  | some p =>
      ((s.square.y - ((p.gap_y : ℚ) + (p.gap_h : ℚ) / 2)) / ((HEIGHT : ℚ) / 2),
        (p.x + p.w - ((WIDTH / 4 : ℕ) : ℚ)) / (WIDTH : ℚ), s.square.vel / 10,
        ((p.gap_h : ℚ) - (GAP_MIN : ℚ)) / ((GAP_START : ℚ) - (GAP_MIN : ℚ)))

/-- The action-application and physics lines of `FlappyEnv.step`
(lines 106-109): flap on action 1, then integrate. -/
def physPhase (s : EnvState) (action : ℕ) : EnvState :=
  { s with square := Square.update (if action = 1 then Square.flap s.square else s.square) }

/-- The live reward/speed/gap/score state entering the pipe loop. -/
def loopInit (s : EnvState) : LoopAcc :=
  { pipes := [], reward := -1 / 100, speed := s.pipe_speed, gap_h := s.gap_h, score := s.score }

/-- The `for pipe in list(self.pipes)` loop of `FlappyEnv.step`
(lines 117-126), returning the updated state and the accumulated reward. -/
def loopPhase (s : EnvState) : EnvState × ℚ :=
  let acc := s.pipes.foldl processPipe (loopInit s)
  ({ s with
       pipes := acc.pipes
       pipe_speed := acc.speed
       gap_h := acc.gap_h
       score := acc.score }, acc.reward)

/-- `FlappyEnv.step`: returns the new state, the observation, the reward and
the `done` flag, consuming draws from the ambient stream `rng`. -/
def stepEnv (rng : ℕ → ℕ) (s : EnvState) (action : ℕ) : EnvState × (ℚ × ℚ × ℚ × ℚ) × ℚ × Bool :=
  let s2 := spawnPhase rng (physPhase s action)
  let lp := loopPhase s2
  let done := collidedCheck lp.1
  let r2 := shapedReward lp.1 (if done then -1 else lp.2)
  let s4 : EnvState := { lp.1 with tick := lp.1.tick + 1 }
  (s4, getObs s4, r2, done)

/-- Run a list of actions from a state, collecting each step's
(observation, reward, done) output. -/
def runFrom (rng : ℕ → ℕ) : EnvState → List ℕ → List ((ℚ × ℚ × ℚ × ℚ) × ℚ × Bool)
  | _, [] => []
  | s, a :: as =>
      let r := stepEnv rng s a
      (r.2.1, r.2.2.1, r.2.2.2) :: runFrom rng r.1 as

/-- `reset(seed)` followed by an action sequence, under ambient stream `rng`. -/
def runTrace (seed : ℕ) (rng : ℕ → ℕ) (as : List ℕ) : List ((ℚ × ℚ × ℚ × ℚ) × ℚ × Bool) :=
  runFrom rng (resetEnv seed) as

/-- Run a list of actions from a state, keeping only the final state. -/
def stepMany (rng : ℕ → ℕ) (s : EnvState) (as : List ℕ) : EnvState :=
  as.foldl (fun t a => (stepEnv rng t a).1) s

/-- States reachable by a reset followed by any sequence of steps. -/
inductive Reachable : EnvState → Prop
  | reset (seed : ℕ) : Reachable (resetEnv seed)
  | step (rng : ℕ → ℕ) (s : EnvState) (a : ℕ) : Reachable s → Reachable (stepEnv rng s a).1

/-- An ambient global-random stream that always yields 0. -/
def rngZero : ℕ → ℕ := fun _ => 0

/-- An ambient global-random stream that always yields 1. -/
def rngOne : ℕ → ℕ := fun _ => 1

/-- The state reached from reset by `n` do-nothing steps, `1 ≤ n ≤ 89`, in
closed form: the square is in free fall, the single pipe spawned at tick 0
has drifted left by 3 per tick (ambient stream all zeros, gap offset 60). -/
def fallState (n : ℕ) : EnvState :=
  { square := { y := 320 + 7 / 40 * n * (n + 1), vel := 7 / 20 * n },
    pipes := [{ x := 480 - 3 * n, w := 60, gap_y := 60, gap_h := 170, passed := false }],
    tick := n, pipe_speed := 3, gap_h := 170, score := 0, rngIdx := 1 }

/-- The invariant maintained by every reachable state: the gap height stays in
`[GAP_MIN, GAP_START]`, the pipe speed never drops below its start value, and
every live pipe has width 60 and sits at or left of the right screen edge. -/
def Inv (s : EnvState) : Prop :=
  GAP_MIN ≤ s.gap_h ∧ s.gap_h ≤ GAP_START ∧ PIPE_SPEED_START ≤ s.pipe_speed ∧
    ∀ p ∈ s.pipes, p.x ≤ (WIDTH : ℚ) ∧ p.w = 60

/-! ## Supporting lemmas -/

/-- The seed handed to `reset` influences no field of the state: it only seeds
`self.np_random`, which the environment never reads. -/
theorem resetEnv_seed_irrelevant (a b : ℕ) : resetEnv a = resetEnv b := rfl

/-- Consequently a whole run is a function of the ambient global-random stream
and the actions alone, whatever the seed. -/
theorem runTrace_seed_irrelevant (a b : ℕ) (rng : ℕ → ℕ) (as : List ℕ) :
    runTrace a rng as = runTrace b rng as := rfl

theorem spawnPhase_tick (rng : ℕ → ℕ) (s : EnvState) : (spawnPhase rng s).tick = s.tick := by
  unfold spawnPhase
  split <;> rfl

theorem spawnPhase_square (rng : ℕ → ℕ) (s : EnvState) :
    (spawnPhase rng s).square = s.square := by
  unfold spawnPhase
  split <;> rfl

theorem spawnPhase_gap_h (rng : ℕ → ℕ) (s : EnvState) : (spawnPhase rng s).gap_h = s.gap_h := by
  unfold spawnPhase
  split <;> rfl

theorem spawnPhase_pipe_speed (rng : ℕ → ℕ) (s : EnvState) :
    (spawnPhase rng s).pipe_speed = s.pipe_speed := by
  unfold spawnPhase
  split <;> rfl

theorem spawnPhase_score (rng : ℕ → ℕ) (s : EnvState) :
    (spawnPhase rng s).score = s.score := by
  unfold spawnPhase
  split <;> rfl

theorem spawnPhase_pipes_mem (rng : ℕ → ℕ) (s : EnvState) :
    ∀ p ∈ (spawnPhase rng s).pipes, p ∈ s.pipes ∨ (p.x = (WIDTH : ℚ) ∧ p.w = 60) := by
  unfold spawnPhase
  split
  · intro p hp
    rcases List.mem_append.1 hp with h | h
    · exact Or.inl h
    · rcases List.mem_singleton.1 h with rfl
      exact Or.inr ⟨rfl, rfl⟩
  · exact fun p hp => Or.inl hp

theorem physPhase_tick (s : EnvState) (a : ℕ) : (physPhase s a).tick = s.tick := rfl

theorem physPhase_square (s : EnvState) (a : ℕ) :
    (physPhase s a).square = Square.update (if a = 1 then Square.flap s.square else s.square) := rfl

theorem loopPhase_tick (s : EnvState) : (loopPhase s).1.tick = s.tick := rfl

theorem loopPhase_square (s : EnvState) : (loopPhase s).1.square = s.square := rfl

/-- The state returned by `stepEnv`, written out as spawn phase then pipe
loop then tick increment (the collision and shaping blocks do not touch the
state). -/
theorem stepEnv_state_eq (rng : ℕ → ℕ) (s : EnvState) (a : ℕ) :
    (stepEnv rng s a).1 =
      { (loopPhase (spawnPhase rng (physPhase s a))).1 with
          tick := (loopPhase (spawnPhase rng (physPhase s a))).1.tick + 1 } := rfl

/-- One pipe-loop iteration: the score never drops, the speed never drops,
the gap never grows and stays at or above the floor, and every pipe in the
output is either an already-kept pipe or the freshly advanced input pipe. -/
theorem processPipe_facts (acc : LoopAcc) (p : Pipe) (hg : GAP_MIN ≤ acc.gap_h) :
    acc.score ≤ (processPipe acc p).score ∧ acc.speed ≤ (processPipe acc p).speed ∧
    (processPipe acc p).gap_h ≤ acc.gap_h ∧ GAP_MIN ≤ (processPipe acc p).gap_h ∧
    ∀ q ∈ (processPipe acc p).pipes, q ∈ acc.pipes ∨ (q.x = p.x - acc.speed ∧ q.w = p.w) := by
  simp only [processPipe]
  cases hf : (!p.passed && decide (p.x - acc.speed + p.w < ((WIDTH / 4 : ℕ) : ℚ)))
  · simp only [hf, Bool.false_eq_true, if_false]
    split
    · exact ⟨le_refl _, le_refl _, le_refl _, hg, fun q hq => Or.inl hq⟩
    · refine ⟨le_refl _, le_refl _, le_refl _, hg, fun q hq => ?_⟩
      rcases List.mem_append.1 hq with h | h
      · exact Or.inl h
      · rcases List.mem_singleton.1 h with rfl
        exact Or.inr ⟨rfl, rfl⟩
  · simp only [hf, if_true]
    split
    · exact ⟨Nat.le_succ _, by linarith, max_le hg (Nat.sub_le _ _), le_max_left _ _,
        fun q hq => Or.inl hq⟩
    · refine ⟨Nat.le_succ _, by linarith, max_le hg (Nat.sub_le _ _), le_max_left _ _,
        fun q hq => ?_⟩
      rcases List.mem_append.1 hq with h | h
      · exact Or.inl h
      · rcases List.mem_singleton.1 h with rfl
        exact Or.inr ⟨rfl, rfl⟩

/-- Pipe-loop fold: score and speed never drop, the gap never grows and stays
at or above the floor. -/
theorem foldl_processPipe_facts (ps : List Pipe) (acc : LoopAcc) (hg : GAP_MIN ≤ acc.gap_h) :
    acc.score ≤ (ps.foldl processPipe acc).score ∧
    acc.speed ≤ (ps.foldl processPipe acc).speed ∧
    (ps.foldl processPipe acc).gap_h ≤ acc.gap_h ∧
    GAP_MIN ≤ (ps.foldl processPipe acc).gap_h := by
  induction ps generalizing acc with
  | nil => exact ⟨le_refl _, le_refl _, le_refl _, hg⟩
  | cons p ps ih =>
    obtain ⟨h1, h2, h3, h4, -⟩ := processPipe_facts acc p hg
    obtain ⟨g1, g2, g3, g4⟩ := ih (processPipe acc p) h4
    exact ⟨h1.trans g1, h2.trans g2, g3.trans h3, g4⟩

/-- Pipe-loop fold: with a nonnegative entering speed, pipes at or left of the
right screen edge stay there (they only ever move left). -/
theorem foldl_processPipe_pipes (ps : List Pipe) (acc : LoopAcc) (hg : GAP_MIN ≤ acc.gap_h)
    (hs : 0 ≤ acc.speed)
    (hps : ∀ p ∈ ps, p.x ≤ (WIDTH : ℚ) ∧ p.w = 60)
    (hacc : ∀ q ∈ acc.pipes, q.x ≤ (WIDTH : ℚ) ∧ q.w = 60) :
    ∀ q ∈ (ps.foldl processPipe acc).pipes, q.x ≤ (WIDTH : ℚ) ∧ q.w = 60 := by
  induction ps generalizing acc with
  | nil => exact hacc
  | cons p ps ih =>
    obtain ⟨-, h2, -, h4, h5⟩ := processPipe_facts acc p hg
    refine ih (processPipe acc p) h4 (le_trans hs h2)
      (fun r hr => hps r (List.mem_cons_of_mem _ hr)) ?_
    intro q hq
    rcases h5 q hq with h | ⟨hx, hw⟩
    · exact hacc q h
    · obtain ⟨hpx, hpw⟩ := hps p (List.mem_cons_self _ _)
      exact ⟨by rw [hx]; linarith, by rw [hw]; exact hpw⟩

/-- One accepted step: the tick advances by exactly one, the score and speed
never drop, the gap never grows and stays at or above the floor. -/
theorem stepEnv_mono (rng : ℕ → ℕ) (s : EnvState) (a : ℕ) (hg : GAP_MIN ≤ s.gap_h) :
    (stepEnv rng s a).1.tick = s.tick + 1 ∧ s.score ≤ (stepEnv rng s a).1.score ∧
    s.pipe_speed ≤ (stepEnv rng s a).1.pipe_speed ∧ (stepEnv rng s a).1.gap_h ≤ s.gap_h ∧
    GAP_MIN ≤ (stepEnv rng s a).1.gap_h := by
  have hg2 : GAP_MIN ≤ (loopInit (spawnPhase rng (physPhase s a))).gap_h := by
    show GAP_MIN ≤ (spawnPhase rng (physPhase s a)).gap_h
    rw [spawnPhase_gap_h]
    exact hg
  obtain ⟨f1, f2, f3, f4⟩ :=
    foldl_processPipe_facts (spawnPhase rng (physPhase s a)).pipes
      (loopInit (spawnPhase rng (physPhase s a))) hg2
  refine ⟨?_, ?_, ?_, ?_, f4⟩
  · show (spawnPhase rng (physPhase s a)).tick + 1 = s.tick + 1
    rw [spawnPhase_tick]
    rfl
  · calc s.score = (spawnPhase rng (physPhase s a)).score := (spawnPhase_score rng (physPhase s a)).symm
      _ ≤ _ := f1
  · calc s.pipe_speed = (spawnPhase rng (physPhase s a)).pipe_speed :=
        (spawnPhase_pipe_speed rng (physPhase s a)).symm
      _ ≤ _ := f2
  · calc (stepEnv rng s a).1.gap_h ≤ (spawnPhase rng (physPhase s a)).gap_h := f3
      _ = s.gap_h := spawnPhase_gap_h rng _

/-- One accepted step preserves the state invariant. -/
theorem stepEnv_inv (rng : ℕ → ℕ) (s : EnvState) (a : ℕ) (h : Inv s) :
    Inv (stepEnv rng s a).1 := by
  obtain ⟨h1, h2, h3, h4⟩ := h
  obtain ⟨m1, m2, m3, m4, m5⟩ := stepEnv_mono rng s a h1
  refine ⟨m5, le_trans m4 h2, le_trans h3 m3, ?_⟩
  intro q hq
  refine foldl_processPipe_pipes (spawnPhase rng (physPhase s a)).pipes
    (loopInit (spawnPhase rng (physPhase s a))) ?_ ?_ ?_ ?_ q hq
  · show GAP_MIN ≤ (spawnPhase rng (physPhase s a)).gap_h
    rw [spawnPhase_gap_h]
    exact h1
  · show (0 : ℚ) ≤ (spawnPhase rng (physPhase s a)).pipe_speed
    rw [spawnPhase_pipe_speed]
    have : (0 : ℚ) ≤ PIPE_SPEED_START := by norm_num [PIPE_SPEED_START]
    exact le_trans this h3
  · intro p hp
    rcases spawnPhase_pipes_mem rng (physPhase s a) p hp with hm | ⟨hx, hw⟩
    · exact h4 p hm
    · exact ⟨le_of_eq hx, hw⟩
  · intro q hq
    simp [loopInit] at hq

/-- Every reachable state satisfies the invariant. -/
theorem reachable_inv (s : EnvState) (h : Reachable s) : Inv s := by
  induction h with
  | reset seed =>
    refine ⟨?_, ?_, ?_, ?_⟩ <;>
      simp [resetEnv, GAP_MIN, GAP_START, PIPE_SPEED_START]
  | step rng s a hr ih => exact stepEnv_inv rng s a ih



theorem pyMinByX_go (ps : List Pipe) (q : Pipe) :
    ∃ p, ps.foldl (fun acc r =>
      match acc with
      | none => some r
      | some t => if r.x < t.x then some r else some t) (some q) = some p ∧
      (p = q ∨ p ∈ ps) ∧ p.x ≤ q.x ∧ ∀ r ∈ ps, p.x ≤ r.x := by
  induction ps generalizing q with
  | nil => exact ⟨q, rfl, Or.inl rfl, le_refl _, by simp⟩
  | cons r ps ih =>
    by_cases hr : r.x < q.x
    · obtain ⟨p, hfold, hmem, hle, hall⟩ := ih r
      refine ⟨p, by simpa [hr] using hfold, ?_, le_trans hle (le_of_lt hr), ?_⟩
      · rcases hmem with rfl | h
        · exact Or.inr (List.mem_cons_self _ _)
        · exact Or.inr (List.mem_cons_of_mem _ h)
      · intro t ht
        rcases List.mem_cons.1 ht with rfl | h
        · exact hle
        · exact hall t h
    · obtain ⟨p, hfold, hmem, hle, hall⟩ := ih q
      refine ⟨p, by simpa [hr] using hfold, ?_, hle, ?_⟩
      · rcases hmem with rfl | h
        · exact Or.inl rfl
        · exact Or.inr (List.mem_cons_of_mem _ h)
      · intro t ht
        rcases List.mem_cons.1 ht with rfl | h
        · exact le_trans hle (not_lt.1 hr)
        · exact hall t h

/-- `pyMinByX` of a nonempty list returns a member of minimal `x`. -/
theorem pyMinByX_spec (p : Pipe) (ps : List Pipe) :
    ∃ q, pyMinByX (p :: ps) = some q ∧ q ∈ p :: ps ∧ ∀ r ∈ p :: ps, q.x ≤ r.x := by
  obtain ⟨q, hfold, hmem, hle, hall⟩ := pyMinByX_go ps p
  refine ⟨q, hfold, ?_, ?_⟩
  · rcases hmem with rfl | h
    · exact List.mem_cons_self _ _
    · exact List.mem_cons_of_mem _ h
  · intro r hr
    rcases List.mem_cons.1 hr with rfl | h
    · exact hle
    · exact hall r h

theorem pyMinByX_mem (ps : List Pipe) (q : Pipe) (h : pyMinByX ps = some q) : q ∈ ps := by
  cases ps with
  | nil => simp [pyMinByX] at h
  | cons a as =>
    obtain ⟨r, hr, hrm, -⟩ := pyMinByX_spec a as
    rw [hr] at h
    cases h
    exact hrm

/-- A pipe delivered by `nextPipe` is a live pipe whose trailing edge has not
passed the square's fixed horizontal position. -/
theorem nextPipe_some_facts (ps : List Pipe) (q : Pipe) (h : nextPipe ps = some q) :
    q ∈ ps ∧ ((WIDTH / 4 : ℕ) : ℚ) ≤ q.x + q.w := by
  unfold nextPipe at h
  have hm := pyMinByX_mem _ _ h
  have h2 := List.mem_filter.1 hm
  exact ⟨h2.1, by simpa [not_lt] using h2.2⟩




theorem stepMany_append_one (rng : ℕ → ℕ) (s : EnvState) (as : List ℕ) (a : ℕ) :
    stepMany rng s (as ++ [a]) = (stepEnv rng (stepMany rng s as) a).1 := by
  unfold stepMany
  rw [List.foldl_append]
  rfl

/-- One symbolic do-nothing step in mid-fall: tick `m` with `1 ≤ m ≤ 89` spawns
nothing, passes nothing, retires nothing. -/
theorem step_fall_aux (m : ℕ) (h1 : 1 ≤ m) (h2 : m ≤ 89) :
    (stepEnv rngZero (fallState m) 0).1 = fallState (m + 1) := by
  have hm89 : (m : ℚ) ≤ 89 := by exact_mod_cast h2
  have hfireP : ¬(480 - 3 * (m : ℚ) - 3 + 60 < ((WIDTH / 4 : ℕ) : ℚ)) := by
    have h120 : ((WIDTH / 4 : ℕ) : ℚ) = 120 := by norm_num [WIDTH]
    rw [h120]
    linarith
  have hoffP : ¬(480 - 3 * (m : ℚ) - 3 + 60 < 0) := by linarith
  have hmodP : ¬(m % PIPE_INTERVAL_TICKS = 0) := by
    unfold PIPE_INTERVAL_TICKS
    omega
  simp only [stepEnv, physPhase, spawnPhase, loopPhase, loopInit, processPipe, fallState,
    List.foldl, List.foldl_cons, List.foldl_nil, Square.update, Square.flap, Pipe.offScreen,
    hmodP, if_false, ite_false]
  simp [hfireP, hoffP, GRAVITY]
  refine ⟨⟨by ring, by ring⟩, by ring⟩

/-- From reset, `n` do-nothing steps (`1 ≤ n ≤ 89`) land exactly in the
closed-form fall state. -/
theorem stepMany_none_fall (n : ℕ) (h1 : 1 ≤ n) (h2 : n ≤ 89) :
    stepMany rngZero (resetEnv 0) (List.replicate n 0) = fallState n := by
  induction n with
  | zero => omega
  | succ m ih =>
    by_cases hm : m = 0
    · subst hm
      rw [show List.replicate 1 (0 : ℕ) = [0] from rfl]
      norm_num [stepMany, List.foldl, stepEnv, physPhase, loopInit, loopPhase, resetEnv,
        spawnPhase, processPipe, Square.update, Square.flap, Square.init, randint,
        collidedCheck, collideRect, Square.rect, Pipe.rects, pyTrunc, Pipe.offScreen,
        nextPipe, pyMinByX, shapedReward, getObs, WIDTH, HEIGHT, GRAVITY, FLAP_STRENGTH,
        PIPE_SPEED_START, PIPE_INTERVAL_TICKS, GAP_START, GAP_MIN, GAP_DEC, SQUARE_SIZE,
        rngZero, fallState]
    · have ihm := ih (by omega) (by omega)
      rw [List.replicate_succ', stepMany_append_one, ihm,
        step_fall_aux m (by omega) (by omega)]


/-! ## Claims -/

/-- C1: the claim asserts that `reset(seed=S)` plus a fixed action sequence is
reproducible from the seed alone.  It is not: the gap offset is drawn from the
ambient global `random` stream, which `reset`'s seed never touches, so two runs
with the same seed 42 and the same one-action sequence diverge already in their
first observation when the ambient stream differs. -/
theorem seed_does_not_determine_trace :
    runTrace 42 rngZero [0] ≠ runTrace 42 rngOne [0] := by
  norm_num [runTrace, runFrom, stepEnv, physPhase, loopInit, loopPhase, resetEnv, spawnPhase, processPipe, Square.update,
    Square.flap, Square.init, randint, collidedCheck, collideRect, Square.rect, Pipe.rects,
    pyTrunc, Pipe.offScreen, nextPipe, pyMinByX, shapedReward, getObs, WIDTH, HEIGHT, GRAVITY,
    FLAP_STRENGTH, PIPE_SPEED_START, PIPE_INTERVAL_TICKS, GAP_START, GAP_MIN, GAP_DEC,
    SQUARE_SIZE, rngZero, rngOne]

/-- C2: the claim asserts that a collision step returns reward exactly `-1.0`.
Dropping with action `NONE` from reset, the square is still on screen after 39
steps (y = 593, bottom edge 631 < 640), and the 40th step collides with the
floor (terminated = true) yet returns reward `-1671/1600 = -1.044375`, not
`-1.0`: the gap-centre shaping term is added after the collision override. -/
theorem collision_reward_includes_shaping :
    (stepMany rngZero (resetEnv 0) (List.replicate 39 0)).square.y = 593 ∧
    (stepEnv rngZero (stepMany rngZero (resetEnv 0) (List.replicate 39 0)) 0).2.2.2 = true ∧
    (stepEnv rngZero (stepMany rngZero (resetEnv 0) (List.replicate 39 0)) 0).2.2.1 = -1671 / 1600 ∧
    ((-1671 / 1600 : ℚ) ≠ -1) := by
  rw [stepMany_none_fall 39 (by norm_num) (by norm_num)]
  refine ⟨by norm_num [fallState], ?_, ?_, by norm_num⟩ <;>
    norm_num [stepEnv, physPhase, loopInit, loopPhase, spawnPhase, processPipe, Square.update,
      Square.flap, randint, collidedCheck, collideRect, Square.rect, Pipe.rects, pyTrunc,
      Pipe.offScreen, nextPipe, pyMinByX, shapedReward, getObs, WIDTH, HEIGHT, GRAVITY,
      PIPE_SPEED_START, PIPE_INTERVAL_TICKS, GAP_START, GAP_MIN, GAP_DEC, SQUARE_SIZE,
      rngZero, fallState]

/-- C3 counterexample: the 40th `NONE` step from reset is terminated, yet a
further `step` call neither fails nor returns the last observation: it
advances the simulation (the tick counter moves to 41 and the square keeps
falling). -/
theorem step_after_termination_advances :
    (stepEnv rngZero (stepMany rngZero (resetEnv 0) (List.replicate 39 0)) 0).2.2.2 = true ∧
    (stepEnv rngZero (stepMany rngZero (resetEnv 0) (List.replicate 40 0)) 0).1.tick = 41 ∧
    (stepEnv rngZero (stepMany rngZero (resetEnv 0) (List.replicate 40 0)) 0).1.square.y ≠
      (stepMany rngZero (resetEnv 0) (List.replicate 40 0)).square.y := by
  rw [stepMany_none_fall 39 (by norm_num) (by norm_num),
    stepMany_none_fall 40 (by norm_num) (by norm_num),
    step_fall_aux 40 (by norm_num) (by norm_num)]
  refine ⟨?_, by norm_num [fallState], by norm_num [fallState]⟩
  norm_num [stepEnv, physPhase, loopInit, loopPhase, spawnPhase, processPipe, Square.update,
    Square.flap, randint, collidedCheck, collideRect, Square.rect, Pipe.rects, pyTrunc,
    Pipe.offScreen, nextPipe, pyMinByX, shapedReward, getObs, WIDTH, HEIGHT, GRAVITY,
    PIPE_SPEED_START, PIPE_INTERVAL_TICKS, GAP_START, GAP_MIN, GAP_DEC, SQUARE_SIZE,
    rngZero, fallState]

/-- C3 amended: `step` keeps no terminal flag and rejects nothing: every call,
in every state whatsoever, advances the tick by one and integrates the
physics. -/
theorem step_never_rejects (rng : ℕ → ℕ) (s : EnvState) (a : ℕ) :
    (stepEnv rng s a).1.tick = s.tick + 1 ∧
    (stepEnv rng s a).1.square = Square.update (if a = 1 then Square.flap s.square else s.square) := by
  constructor <;>
    simp [stepEnv, loopPhase_tick, loopPhase_square, spawnPhase_tick, spawnPhase_square,
      physPhase_tick, physPhase_square]

/-- C4 counterexample: after `reset(seed=42)` and one `FLAP` step the velocity
is `-7.15`, not the flap-impulse constant `-7.5`: `update` adds gravity
unconditionally after the impulse. -/
theorem flap_velocity_not_impulse :
    (stepEnv rngZero (resetEnv 42) 1).1.square.vel = -143 / 20 ∧
    ((-143 / 20 : ℚ) ≠ FLAP_STRENGTH) := by
  norm_num [stepEnv, physPhase, loopInit, loopPhase, resetEnv, spawnPhase, processPipe, Square.update, Square.flap, Square.init,
    randint, collidedCheck, collideRect, Square.rect, Pipe.rects, pyTrunc, Pipe.offScreen,
    nextPipe, pyMinByX, shapedReward, getObs, WIDTH, HEIGHT, GRAVITY, FLAP_STRENGTH,
    PIPE_SPEED_START, PIPE_INTERVAL_TICKS, GAP_START, GAP_MIN, GAP_DEC, SQUARE_SIZE, rngZero]

/-- C4 amended: after `reset(seed=42)` and one `FLAP` step, whatever the
ambient stream, the velocity is exactly the flap impulse plus gravity, the
episode is not terminated, and the reward is the base survival penalty `-0.01`
plus the gap-centre shaping term of the resulting state. -/
theorem flap_scenario (rng : ℕ → ℕ) :
    (stepEnv rng (resetEnv 42) 1).1.square.vel = FLAP_STRENGTH + GRAVITY ∧
    (stepEnv rng (resetEnv 42) 1).2.2.2 = false ∧
    (stepEnv rng (resetEnv 42) 1).2.2.1 = shapedReward (stepEnv rng (resetEnv 42) 1).1 (-1 / 100) := by
  norm_num [stepEnv, physPhase, loopInit, loopPhase, resetEnv, spawnPhase, processPipe, Square.update, Square.flap, Square.init,
    randint, collidedCheck, collideRect, Square.rect, Pipe.rects, pyTrunc, Pipe.offScreen,
    nextPipe, pyMinByX, shapedReward, getObs, WIDTH, HEIGHT, GRAVITY, FLAP_STRENGTH,
    PIPE_SPEED_START, PIPE_INTERVAL_TICKS, GAP_START, GAP_MIN, GAP_DEC, SQUARE_SIZE]


/-- C7: in one pipe-loop iteration the score callback (score +1, reward +1,
speed +0.15, gap shrunk by `GAP_DEC` floored at `GAP_MIN`) fires exactly when
the pipe is not yet flagged and its advanced trailing edge is strictly left of
the square's fixed quarter-screen position; the kept pipe's flag becomes the
one-way disjunction of the old flag with the crossing test, so an already
flagged pipe never fires again. -/
theorem score_callback_fires_once (acc : LoopAcc) (p : Pipe) :
    ((processPipe acc p).score = acc.score +
      (if !p.passed && decide (p.x - acc.speed + p.w < ((WIDTH / 4 : ℕ) : ℚ)) then 1 else 0)) ∧
    ((processPipe acc p).reward = acc.reward +
      (if !p.passed && decide (p.x - acc.speed + p.w < ((WIDTH / 4 : ℕ) : ℚ)) then 1 else 0)) ∧
    ((processPipe acc p).speed = acc.speed +
      (if !p.passed && decide (p.x - acc.speed + p.w < ((WIDTH / 4 : ℕ) : ℚ)) then 15 / 100 else 0)) ∧
    ((processPipe acc p).gap_h =
      (if !p.passed && decide (p.x - acc.speed + p.w < ((WIDTH / 4 : ℕ) : ℚ)) then
        max GAP_MIN (acc.gap_h - GAP_DEC) else acc.gap_h)) ∧
    ∀ q ∈ (processPipe acc p).pipes, q ∈ acc.pipes ∨
      q.passed = (p.passed || decide (p.x - acc.speed + p.w < ((WIDTH / 4 : ℕ) : ℚ))) := by
  simp only [processPipe]
  cases hp : p.passed <;>
    cases hc : decide (p.x - acc.speed + p.w < ((WIDTH / 4 : ℕ) : ℚ)) <;>
      simp only [hp, hc, Bool.not_true, Bool.not_false, Bool.true_and, Bool.false_and,
        Bool.and_true, Bool.and_false, Bool.true_or, Bool.false_or, if_true, if_false,
        Bool.false_eq_true, ite_true, ite_false] <;>
      split <;>
      refine ⟨by simp, by simp, by simp, by simp, fun q hq => ?_⟩ <;>
      simp only [List.mem_append, List.mem_singleton] at hq <;>
      first
        | exact Or.inl hq
        | rcases hq with hq | rfl
          · exact Or.inl hq
          · exact Or.inr rfl



/-- C8: the observation vector.  When every live pipe has been passed the
fallback vector is produced (vertical 0, horizontal a full screen width, the
ambient gap height); otherwise the encoded pipe is an upcoming live pipe of
minimal horizontal position, and the four components are the normalized
vertical gap-centre distance, trailing-edge distance, velocity and rescaled
gap height. -/
theorem obs_uses_nearest_upcoming (s : EnvState) :
    ((∀ p ∈ s.pipes, p.x + p.w < ((WIDTH / 4 : ℕ) : ℚ)) →
      getObs s = (0, (WIDTH : ℚ) / (WIDTH : ℚ), s.square.vel / 10,
        ((s.gap_h : ℚ) - (GAP_MIN : ℚ)) / ((GAP_START : ℚ) - (GAP_MIN : ℚ)))) ∧
    (∀ p ∈ s.pipes, ((WIDTH / 4 : ℕ) : ℚ) ≤ p.x + p.w →
      ∃ q, q ∈ s.pipes ∧ ((WIDTH / 4 : ℕ) : ℚ) ≤ q.x + q.w ∧
        (∀ r ∈ s.pipes, ((WIDTH / 4 : ℕ) : ℚ) ≤ r.x + r.w → q.x ≤ r.x) ∧
        getObs s = ((s.square.y - ((q.gap_y : ℚ) + (q.gap_h : ℚ) / 2)) / ((HEIGHT : ℚ) / 2),
          (q.x + q.w - ((WIDTH / 4 : ℕ) : ℚ)) / (WIDTH : ℚ), s.square.vel / 10,
          ((q.gap_h : ℚ) - (GAP_MIN : ℚ)) / ((GAP_START : ℚ) - (GAP_MIN : ℚ)))) := by
  constructor
  · intro hall
    have hfe : s.pipes.filter (fun p => !decide (p.x + p.w < ((WIDTH / 4 : ℕ) : ℚ))) = [] := by
      rw [List.filter_eq_nil_iff]
      intro p hp
      simp [hall p hp]
    unfold getObs nextPipe
    rw [hfe]
    rfl
  · intro p hp hup
    cases hfl : s.pipes.filter (fun r => !decide (r.x + r.w < ((WIDTH / 4 : ℕ) : ℚ))) with
    | nil =>
      exfalso
      have hnp := List.filter_eq_nil_iff.1 hfl p hp
      simp [not_lt] at hnp
      exact absurd hup (not_le.2 hnp)
    | cons a as =>
      obtain ⟨q, hq, hqmem, hqmin⟩ := pyMinByX_spec a as
      have hqmem2 : q ∈ s.pipes.filter (fun r => !decide (r.x + r.w < ((WIDTH / 4 : ℕ) : ℚ))) := by
        rw [hfl]
        exact hqmem
      have hqf := List.mem_filter.1 hqmem2
      have hqup : ((WIDTH / 4 : ℕ) : ℚ) ≤ q.x + q.w := by
        have := hqf.2
        simpa [not_lt] using this
      refine ⟨q, hqf.1, hqup, ?_, ?_⟩
      · intro r hr hru
        have hrf : r ∈ s.pipes.filter (fun t => !decide (t.x + t.w < ((WIDTH / 4 : ℕ) : ℚ))) :=
          List.mem_filter.2 ⟨hr, by simpa [not_lt] using hru⟩
        rw [hfl] at hrf
        exact hqmin r hrf
      · unfold getObs nextPipe
        rw [hfl, hq]

/-- C8 witness: the fallback branch at the freshly reset (pipe-free) state. -/
theorem obs_uses_nearest_upcoming_w :
    getObs (resetEnv 0) = (0, (WIDTH : ℚ) / (WIDTH : ℚ), (resetEnv 0).square.vel / 10,
      (((resetEnv 0).gap_h : ℚ) - (GAP_MIN : ℚ)) / ((GAP_START : ℚ) - (GAP_MIN : ℚ))) :=
  (obs_uses_nearest_upcoming (resetEnv 0)).1 (by simp [resetEnv])

/-- C9: on every reachable state the gap height lies in `[GAP_MIN, GAP_START]`,
so the bounds of the mid-episode uniform draw are valid:
`60 ≤ HEIGHT - 60 - gap_h`, and the spawn never fails. -/
theorem spawn_draw_bounds_valid (s : EnvState) (h : Reachable s) :
    GAP_MIN ≤ s.gap_h ∧ s.gap_h ≤ GAP_START ∧ 60 + s.gap_h ≤ HEIGHT - 60 := by
  obtain ⟨h1, h2, -, -⟩ := reachable_inv s h
  refine ⟨h1, h2, ?_⟩
  unfold GAP_START at h2
  unfold HEIGHT
  omega

/-- C9 witness: the draw-bound facts at the freshly reset state. -/
theorem spawn_draw_bounds_valid_w :
    GAP_MIN ≤ (resetEnv 0).gap_h ∧ (resetEnv 0).gap_h ≤ GAP_START ∧
    60 + (resetEnv 0).gap_h ≤ HEIGHT - 60 :=
  spawn_draw_bounds_valid (resetEnv 0) (Reachable.reset 0)



/-- C10: on every reachable state each live pipe sits at or left of the right
screen edge, so the horizontal observation component lies in `[0, 1]`, and it
equals 1 exactly in the no-upcoming-pipe fallback. -/
theorem obs_horizontal_component_bounded (s : EnvState) (h : Reachable s) :
    (∀ p ∈ s.pipes, p.x ≤ (WIDTH : ℚ)) ∧
    0 ≤ (getObs s).2.1 ∧ (getObs s).2.1 ≤ 1 ∧
    (nextPipe s.pipes = none → (getObs s).2.1 = 1) := by
  obtain ⟨-, -, -, h4⟩ := reachable_inv s h
  have key : (0 ≤ (getObs s).2.1 ∧ (getObs s).2.1 ≤ 1) ∧
      (nextPipe s.pipes = none → (getObs s).2.1 = 1) := by
    cases hnp : nextPipe s.pipes with
    | none =>
      have hob : (getObs s).2.1 = (WIDTH : ℚ) / (WIDTH : ℚ) := by
        unfold getObs
        rw [hnp]
      rw [hob]
      norm_num [WIDTH]
    | some q =>
      obtain ⟨hqm, hqup⟩ := nextPipe_some_facts s.pipes q hnp
      obtain ⟨hqx, hqw⟩ := h4 q hqm
      have hob : (getObs s).2.1 = (q.x + q.w - ((WIDTH / 4 : ℕ) : ℚ)) / (WIDTH : ℚ) := by
        unfold getObs
        rw [hnp]
      have h120 : ((WIDTH / 4 : ℕ) : ℚ) = 120 := by norm_num [WIDTH]
      have h480 : ((WIDTH : ℕ) : ℚ) = 480 := by norm_num [WIDTH]
      rw [h120] at hqup
      rw [h480] at hqx
      refine ⟨⟨?_, ?_⟩, fun hc => absurd hc (by simp)⟩
      · rw [hob, h120, h480]
        apply div_nonneg _ (by norm_num)
        linarith
      · rw [hob, h120, h480, div_le_one (by norm_num : (0:ℚ) < 480)]
        linarith [hqw]
  exact ⟨fun p hp => (h4 p hp).1, key.1.1, key.1.2, key.2⟩

/-- C10 witness: the horizontal-component bounds at the freshly reset state. -/
theorem obs_horizontal_component_bounded_w :
    (∀ p ∈ (resetEnv 0).pipes, p.x ≤ (WIDTH : ℚ)) ∧
    0 ≤ (getObs (resetEnv 0)).2.1 ∧ (getObs (resetEnv 0)).2.1 ≤ 1 ∧
    (nextPipe (resetEnv 0).pipes = none → (getObs (resetEnv 0)).2.1 = 1) :=
  obs_horizontal_component_bounded (resetEnv 0) (Reachable.reset 0)


/-- C5: within an episode, each accepted step advances the tick by exactly 1,
never decreases the score or the obstacle speed, and never increases the gap
height, which stays at or above `GAP_MIN`. -/
theorem step_monotone_counters (s : EnvState) (h : Reachable s) (rng : ℕ → ℕ) (a : ℕ) :
    (stepEnv rng s a).1.tick = s.tick + 1 ∧ s.score ≤ (stepEnv rng s a).1.score ∧
    s.pipe_speed ≤ (stepEnv rng s a).1.pipe_speed ∧ (stepEnv rng s a).1.gap_h ≤ s.gap_h ∧
    GAP_MIN ≤ (stepEnv rng s a).1.gap_h :=
  stepEnv_mono rng s a (reachable_inv s h).1

/-- C5 witness: the step monotonicity facts at the freshly reset state. -/
theorem step_monotone_counters_w :
    (stepEnv rngZero (resetEnv 0) 0).1.tick = (resetEnv 0).tick + 1 ∧
    (resetEnv 0).score ≤ (stepEnv rngZero (resetEnv 0) 0).1.score ∧
    (resetEnv 0).pipe_speed ≤ (stepEnv rngZero (resetEnv 0) 0).1.pipe_speed ∧
    (stepEnv rngZero (resetEnv 0) 0).1.gap_h ≤ (resetEnv 0).gap_h ∧
    GAP_MIN ≤ (stepEnv rngZero (resetEnv 0) 0).1.gap_h :=
  step_monotone_counters (resetEnv 0) (Reachable.reset 0) rngZero 0

/-- C6: on ticks that are multiples of the spawn interval exactly one pipe is
appended, at the right screen edge with width 60 and a gap offset drawn from
the closed interval `[60, HEIGHT - 60 - gap_h]`; on all other ticks the pipe
collection is untouched. -/
theorem spawn_exactly_on_interval (rng : ℕ → ℕ) (s : EnvState) (h : s.gap_h ≤ GAP_START) :
    (s.tick % PIPE_INTERVAL_TICKS = 0 →
      (spawnPhase rng s).pipes = s.pipes ++
        [{ x := (WIDTH : ℚ), w := 60, gap_y := randint rng s.rngIdx 60 (HEIGHT - 60 - s.gap_h),
           gap_h := s.gap_h, passed := false }] ∧
      60 ≤ randint rng s.rngIdx 60 (HEIGHT - 60 - s.gap_h) ∧
      randint rng s.rngIdx 60 (HEIGHT - 60 - s.gap_h) + s.gap_h ≤ HEIGHT - 60) ∧
    (s.tick % PIPE_INTERVAL_TICKS ≠ 0 → (spawnPhase rng s).pipes = s.pipes) := by
  constructor
  · intro ht
    refine ⟨?_, Nat.le_add_right _ _, ?_⟩
    · unfold spawnPhase
      rw [if_pos ht]
    · have hmod : rng s.rngIdx % ((HEIGHT - 60 - s.gap_h) + 1 - 60) <
          (HEIGHT - 60 - s.gap_h) + 1 - 60 := by
        apply Nat.mod_lt
        unfold HEIGHT
        unfold GAP_START at h
        omega
      unfold randint
      unfold HEIGHT at *
      unfold GAP_START at h
      omega
  · intro ht
    unfold spawnPhase
    rw [if_neg ht]

/-- C6 witness: the spawn facts at the freshly reset state (tick 0). -/
theorem spawn_exactly_on_interval_w :
    (spawnPhase rngZero (resetEnv 0)).pipes = (resetEnv 0).pipes ++
      [{ x := (WIDTH : ℚ), w := 60,
         gap_y := randint rngZero (resetEnv 0).rngIdx 60 (HEIGHT - 60 - (resetEnv 0).gap_h),
         gap_h := (resetEnv 0).gap_h, passed := false }] ∧
    60 ≤ randint rngZero (resetEnv 0).rngIdx 60 (HEIGHT - 60 - (resetEnv 0).gap_h) ∧
    randint rngZero (resetEnv 0).rngIdx 60 (HEIGHT - 60 - (resetEnv 0).gap_h) +
      (resetEnv 0).gap_h ≤ HEIGHT - 60 :=
  (spawn_exactly_on_interval rngZero (resetEnv 0) (by decide)).1 (by decide)

end FunGame
